import Mathlib

/-!
Verification of the serendipbot discovery pipeline.

This file embeds, as executable Lean definitions, the parts of
`creative_discovery_agent.py` and `web_discovery_agent.py` that the
specification talks about: the page analyzer (title / description
extraction and keyword classification), the per-run URL deduplication,
the merge of newly discovered records into the persisted collection,
the GitHub-backed save step, and the scoring variant's merge with its
sort-and-truncate policy, together with the fallback-filling web
search of the scoring variant.  Theorems about these definitions settle
the frozen claims about the spec.
-/

namespace Serendip

/-! ### String primitives mirroring the Python operations used by the code -/

/-- The ASCII whitespace characters recognised by Python's `str.strip`
and by the regex class used in `re.sub` calls of the code. -/
def isPyWs (c : Char) : Bool :=
  c = ' ' || c = '\t' || c = '\n' || c = '\r' || c = '\x0b' || c = '\x0c'

/-- Python `str.strip()`: drop whitespace at both ends. -/
def pyStrip (s : String) : String :=
  ((s.toList.dropWhile isPyWs).reverse.dropWhile isPyWs).reverse.asString

/-- Helper for `collapseWs`: the boolean records whether the previous
character was whitespace (so a run contributes a single space). -/
def collapseAux : List Char → Bool → List Char
  | [], _ => []
  | c :: cs, prevWs =>
    if isPyWs c then
      if prevWs then collapseAux cs true else ' ' :: collapseAux cs true
    else
      c :: collapseAux cs false

/-- Python `re.sub(r'\s+', ' ', s)`: every maximal run of whitespace is
replaced by a single space (ends included, they are not stripped). -/
def collapseWs (s : String) : String :=
  (collapseAux s.toList false).asString

/-- Python string slicing `s[:n]`: the first `n` characters. -/
def pyTake (s : String) (n : Nat) : String :=
  (s.toList.take n).asString

/-- Substring test on character lists: Python's `needle in hay`. -/
def listSub (needle : List Char) : List Char → Bool
  | [] => needle.isEmpty
  | c :: cs => needle.isPrefixOf (c :: cs) || listSub needle cs

/-- Python `needle in hay` on strings (substring containment). -/
def isSubstr (needle hay : String) : Bool :=
  listSub needle.toList hay.toList

/-- Python `any(word in text for word in words)`. -/
def containsAny (words : List String) (text : String) : Bool :=
  words.any (fun w => isSubstr w text)

/-- `urlparse(url).netloc` as used by the code on `http(s)` URLs: the
text between the `://` scheme separator and the next `/`, `?` or `#`
(empty when the URL has no `://`). -/
def afterScheme : List Char → Option (List Char)
  | [] => none
  | ':' :: '/' :: '/' :: rest => some rest
  | _ :: rest => afterScheme rest

/-- The network-location part of a URL, see `afterScheme`. -/
def netloc (url : String) : String :=
  match afterScheme url.toList with
  | some r => (r.takeWhile (fun c => !(c = '/' || c = '?' || c = '#'))).asString
  | none => ""

/-- Python `a or b` on strings: `a` when nonempty, else `b`. -/
def pyOr (a b : String) : String :=
  if a = "" then b else a

/-- Python `str.lower()` (character-wise, which matches how the code
uses it on ASCII keywords). -/
def pyLower (s : String) : String :=
  (s.toList.map Char.toLower).asString

/-- Python `str.startswith(pre)`. -/
def pyStartsWith (s pre : String) : Bool :=
  pre.toList.isPrefixOf s.toList

/-! ### The analyzed record produced by `analyze_discovered_site` -/

/-- The dictionary returned by `analyze_discovered_site`
(`creative_discovery_agent.py`), the sole persisted entity of the
creative pipeline. -/
structure Site where
  title : String
  description : String
  link : String
  category : String
  emoji : String
  tags : List String
deriving DecidableEq, Repr

/-- The features of a fetched HTML page that
`analyze_discovered_site` extracts with BeautifulSoup.  `none` means
the element is absent; for the meta tags, `some c` is the value of the
`content` attribute (the code reads it with `.get('content', '')`, so
an absent attribute behaves like `some ""`).  The `twitterDescription`
field records the `twitter:description` meta tag of the page; the code
of this repository never reads it, it is here so that the
specification's claimed extraction order can be stated against the
same page model. -/
structure Page where
  titleTag : Option String
  metaDescription : Option String
  ogDescription : Option String
  twitterDescription : Option String
  firstParagraph : Option String
deriving DecidableEq, Repr

/-- One keyword group of the classifier: the words tested by
`any(word in content_text for word in [...])`, the category assigned on
a match, the emoji pool `random.choice` draws from, and the tags the
branch appends. -/
structure Rule where
  words : List String
  category : String
  emojis : List String
  extraTags : List String

/-- The `if/elif` keyword groups of `analyze_discovered_site`
(`creative_discovery_agent.py` lines 327-365), in source order. -/
def codeRules : List Rule :=
  [ ⟨["art", "image", "photo", "visual", "design", "draw", "paint", "creative"],
      "creative", ["🎨", "✨", "🖌️", "🎭"], ["Art", "Creative"]⟩,
    ⟨["music", "audio", "voice", "sound", "sing", "compose"],
      "audio", ["🎵", "🎤", "🎧", "🔊"], ["Music", "Audio"]⟩,
    ⟨["game", "play", "interactive", "fun", "quiz", "adventure"],
      "games", ["🎮", "🎯", "🎲", "🎪"], ["Game", "Interactive"]⟩,
    ⟨["write", "text", "copy", "content", "article", "blog"],
      "ai-tools", ["✍️", "📝", "💬", "📄"], ["Writing", "Text"]⟩,
    ⟨["video", "animation", "movie", "film", "motion"],
      "creative", ["🎬", "🎥", "📹", "🎞️"], ["Video", "Animation"]⟩,
    ⟨["chat", "conversation", "assistant", "bot", "talk"],
      "ai-tools", ["🤖", "💬", "🗣️", "💭"], ["Assistant"]⟩,
    ⟨["experiment", "research", "demo", "test", "lab"],
      "experimental", ["🧪", "⚗️", "🔬", "🧬"], ["Experimental"]⟩,
    ⟨["weird", "funny", "humor", "strange", "quirky"],
      "fun", ["😄", "🤪", "😂", "🎉"], ["Humor"]⟩ ]

/-- First matching rule wins; no match keeps the defaults
(category `"creative"`, emoji `"🎨"`, no extra tags). -/
def firstRule (rules : List Rule) (text : String) : Rule :=
  match rules with
  | [] => ⟨[], "creative", ["🎨"], []⟩
  | r :: rest => if containsAny r.words text then r else firstRule rest text

/-- The category the ordered rule list assigns to a text. -/
def classifyFirst (rules : List Rule) (text : String) : String :=
  (firstRule rules text).category

/-- `random.choice` over a nonempty pool, driven by an explicit
pseudo-random index (the code uses global `random` state). -/
def pickEmoji (pool : List String) (rnd : Nat) : String :=
  pool.getD (rnd % pool.length) "🎨"

/-- First-occurrence deduplication keyed by `key`, with an explicit
`seen` accumulator: the `seen_urls` loop of `main`
(`creative_discovery_agent.py` lines 424-429) and the order-erasing
`list(set(tags))` of the analyzer, whose iteration order Python leaves
unspecified (here: first occurrence). -/
def dedupSeen (key : α → String) : List α → List String → List α
  | [], _ => []
  | x :: xs, seen =>
    if seen.contains (key x) then dedupSeen key xs seen
    else x :: dedupSeen key xs (key x :: seen)

/-- Deduplicate a list of strings, keeping first occurrences. -/
def dedupFirst (l : List String) : List String :=
  dedupSeen id l []

/-- The title computed by `analyze_discovered_site` lines 293-298:
`<title>` text stripped (fallback title when the element is absent),
whitespace collapsed, cut to 100 characters; an empty or placeholder
result is replaced by `fallback_title or urlparse(url).netloc`. -/
def siteTitle (page : Page) (url : String) (fallbackTitle : String) : String :=
  let t0 := match page.titleTag with
    | some t => pyStrip t
    | none => fallbackTitle
  let t1 := pyTake (collapseWs t0) 100
  if t1 = "" || ["", "untitled", "loading..."].contains (pyLower t1) then
    pyOr fallbackTitle (netloc url)
  else t1

/-- The generic description used when nothing was extracted. -/
def fallbackDescription : String :=
  "AI-powered creative tool discovered from web search"

/-- The description computed by `analyze_discovered_site` lines
300-317: the `description` meta tag, else `og:description`, else the
first paragraph's stripped text cut to 200 characters; a (truthy)
result is stripped, whitespace-collapsed and cut to 200 characters,
an empty one is replaced by the generic fallback sentence. -/
def siteDescription (page : Page) : String :=
  let d0 := match page.metaDescription with
    | some c => c
    | none => ""
  let d1 := if d0 = "" then
      (match page.ogDescription with
       | some c => c
       | none => "")
    else d0
  let d2 := if d1 = "" then
      (match page.firstParagraph with
       | some p => pyTake (pyStrip p) 200
       | none => "")
    else d1
  if d2 = "" then fallbackDescription
  else pyTake (collapseWs (pyStrip d2)) 200

/-- The lowercased blob `f"(title) (description) (url)".lower()` the
classifier matches keywords against. -/
def contentTextOf (title description url : String) : String :=
  pyLower (title ++ " " ++ description ++ " " ++ url)

/-- The feature tags of `analyze_discovered_site` lines 367-373, added
independently of the category branch. -/
def featureTags (contentText url : String) : List String :=
  (if isSubstr "generate" contentText || isSubstr "generator" contentText
    then ["Generation"] else []) ++
  (if isSubstr "neural" contentText || isSubstr "deep learning" contentText
    then ["Neural Networks"] else []) ++
  (if isSubstr "open source" contentText || isSubstr "github" url
    then ["Open Source"] else [])

/-- `analyze_discovered_site(url, fallback_title)` on a successfully
fetched page (`creative_discovery_agent.py` lines 290-385).  `rnd`
drives the `random.choice` emoji pick and nothing else. -/
def analyzeSite (page : Page) (url : String) (fallbackTitle : String) (rnd : Nat) : Site :=
  let title := siteTitle page url fallbackTitle
  let description := siteDescription page
  let contentText := contentTextOf title description url
  let rule := firstRule codeRules contentText
  let tags := ["AI", "Discovered"] ++ rule.extraTags ++ featureTags contentText url
  { title := title
    description := description
    link := url
    category := rule.category
    emoji := pickEmoji rule.emojis rnd
    tags := (dedupFirst tags).take 4 }

/-- `analyze_discovered_site` including the HTTP status check: a
non-200 response yields `none` (the candidate is dropped). -/
def analyze (status : Nat) (page : Page) (url : String) (fallbackTitle : String)
    (rnd : Nat) : Option Site :=
  if status = 200 then some (analyzeSite page url fallbackTitle rnd) else none

/-! ### Merging discoveries into the persisted collection
(`creative_discovery_agent.py`, `main`) -/

/-- `{site.get('link', '') for site in existing_sites}` (line 449). -/
def existingUrls (existing : List Site) : List String :=
  existing.map (·.link)

/-- `[site for site in unique_discovered if site['link'] not in existing_urls]`
(line 450). -/
def newSites (existing discovered : List Site) : List Site :=
  discovered.filter (fun s => !(existingUrls existing).contains s.link)

/-- `all_sites = existing_sites + new_sites` (line 466). -/
def allSites (existing discovered : List Site) : List Site :=
  existing ++ newSites existing discovered

/-- The in-run `seen_urls` deduplication of `main` (lines 424-429):
first occurrence of each `link` wins. -/
def uniqueDiscovered (discovered : List Site) : List Site :=
  dedupSeen (·.link) discovered []

/-- The collection a run leaves behind, as a function of the collection
it loaded and the raw analyzed records: in-run dedup, drop links
already stored, append.  (When nothing new is found the run writes
nothing, which leaves the same collection.) -/
def runCollection (stored analyzed : List Site) : List Site :=
  allSites stored (uniqueDiscovered analyzed)

/-! ### The GitHub-backed store
(`repo.get_contents` / `repo.update_file` / `repo.create_file`) -/

/-- The state of the stored JSON document: its parsed content together
with its revision (the git blob sha, abstracted to a counter that every
successful write bumps), or `none` when no document exists. -/
structure Store where
  file : Option (List Site × Nat)
deriving DecidableEq, Repr

/-- `repo.get_contents(path)`: the content and its revision token. -/
def getContents (s : Store) : Option (List Site × Nat) :=
  s.file

/-- `repo.update_file(path, ..., content, sha)`: succeeds exactly when
the passed revision token matches the store's current one. -/
def updateFile (s : Store) (content : List Site) (sha : Nat) : Except String Store :=
  match s.file with
  | some (_, rev) =>
    if sha = rev then .ok ⟨some (content, rev + 1)⟩ else .error "409 sha mismatch"
  | none => .error "404 not found"

/-- `repo.create_file(path, ..., content)`: succeeds exactly when no
document exists yet. -/
def createFile (s : Store) (content : List Site) : Except String Store :=
  match s.file with
  | some _ => .error "422 already exists"
  | none => .ok ⟨some (content, 0)⟩

/-- The load step of `main` (lines 438-446): parse the stored document,
treating any failure (missing file included) as an empty collection. -/
def loadCreative (s : Store) : List Site :=
  match s.file with
  | some (content, _) => content
  | none => []

/-- The save step of `main` (lines 471-484), applied to the store state
*at save time*: re-fetch the document to obtain a fresh revision token,
update with that token, and on any failure fall back to creating the
file.  Note the token passed to `updateFile` is the one just fetched,
not the one from load time. -/
def saveCreative (s : Store) (content : List Site) : Except String Store :=
  match getContents s with
  | some (_, sha) =>
    match updateFile s content sha with
    | .ok s2 => .ok s2
    | .error _ => createFile s content
  | none => createFile s content

/-! ### The scoring variant (`web_discovery_agent.py`) -/

/-- The `WebsiteScore` dataclass.  Scores are Python floats; they are
modelled as rationals, which is faithful for everything the claims
touch (comparisons, sorting, truncation). -/
structure WebsiteScore where
  url : String
  title : String
  description : String
  creativity_score : ℚ
  quirkiness_score : ℚ
  usefulness_score : ℚ
  overall_score : ℚ
  ai_features : List String
  discovered_date : String
  screenshot_url : Option String := none
deriving DecidableEq, Repr

/-- `[site for site in new_discoveries if site.url not in existing_urls]`
(`run_daily_discovery`, line 431). -/
def trulyNew (existing newDiscoveries : List WebsiteScore) : List WebsiteScore :=
  newDiscoveries.filter (fun s => !(existing.map (·.url)).contains s.url)

/-- Stable descending insertion keyed by `overall_score`: the element
goes before the first strictly smaller score, hence after all earlier
elements with an equal score. -/
def insertDesc (x : WebsiteScore) : List WebsiteScore → List WebsiteScore
  | [] => [x]
  | y :: ys =>
    if y.overall_score ≤ x.overall_score then x :: y :: ys
    else y :: insertDesc x ys

/-- `all_discoveries.sort(key=lambda x: x['overall_score'], reverse=True)`
(line 442): Python's stable sort, descending by overall score. -/
def sortDesc : List WebsiteScore → List WebsiteScore
  | [] => []
  | x :: xs => insertDesc x (sortDesc xs)

/-- The document content written whenever `run_daily_discovery` saves
(lines 437-445): merged list, sorted by score descending, cut to the
top 100. -/
def savedDoc (existing newDiscoveries : List WebsiteScore) : List WebsiteScore :=
  (sortDesc (existing ++ trulyNew existing newDiscoveries)).take 100

/-- The persisted `discoveries` list after `run_daily_discovery`: when
nothing is truly new no save happens and the stored list is unchanged,
otherwise the sorted-and-truncated merge is written. -/
def runDailyMerge (existing newDiscoveries : List WebsiteScore) : List WebsiteScore :=
  if (trulyNew existing newDiscoveries).isEmpty then existing
  else savedDoc existing newDiscoveries

/-! ### `WebDiscoveryAgent.search_web` (`web_discovery_agent.py` lines 84-184) -/

/-- One search result dictionary: url, title, snippet. -/
structure SearchResult where
  url : String
  title : String
  snippet : String
deriving DecidableEq, Repr

/-- The hard-coded `quality_ai_sites` fallback list (lines 90-111). -/
def qualityAiSites : List SearchResult :=
  [ ⟨"https://beta.openai.com/playground", "OpenAI Playground",
      "Interactive AI playground for GPT models"⟩,
    ⟨"https://huggingface.co/spaces", "Hugging Face Spaces",
      "Community AI model demos and applications"⟩,
    ⟨"https://replicate.com/explore", "Replicate Explore",
      "Discover and run AI models in the cloud"⟩,
    ⟨"https://runwayml.com/ai-tools", "RunwayML AI Tools",
      "Creative AI tools for content creators"⟩,
    ⟨"https://stability.ai/stablediffusion", "Stable Diffusion",
      "Open source AI image generation"⟩,
    ⟨"https://claude.ai", "Claude AI",
      "Anthropic AI assistant for conversations and tasks"⟩,
    ⟨"https://perplexity.ai", "Perplexity AI",
      "AI-powered search and research assistant"⟩,
    ⟨"https://character.ai", "Character.AI",
      "Chat with AI characters and personalities"⟩,
    ⟨"https://midjourney.com", "Midjourney",
      "AI art generation through Discord"⟩,
    ⟨"https://fireflies.ai", "Fireflies AI",
      "AI meeting notes and transcription"⟩,
    ⟨"https://jasper.ai", "Jasper AI",
      "AI copywriting and content creation"⟩,
    ⟨"https://copy.ai", "Copy.ai",
      "AI-powered writing assistant"⟩,
    ⟨"https://writesonic.com", "Writesonic",
      "AI content generator for marketing"⟩,
    ⟨"https://luma.ai", "Luma AI",
      "3D content creation with AI"⟩,
    ⟨"https://elevenlabs.io", "ElevenLabs",
      "AI voice synthesis and cloning"⟩,
    ⟨"https://synthesia.io", "Synthesia",
      "AI video generation with avatars"⟩,
    ⟨"https://tavus.io", "Tavus",
      "Personalized AI video generation"⟩,
    ⟨"https://murf.ai", "Murf AI",
      "AI voiceover and text-to-speech"⟩,
    ⟨"https://descript.com", "Descript",
      "AI-powered audio and video editing"⟩,
    ⟨"https://beautiful.ai", "Beautiful.ai",
      "AI presentation design tool"⟩ ]

/-- The live DuckDuckGo scrape loop (lines 128-140): at most the first
10 result blocks are examined, a result is kept when fewer than 3 have
been kept so far, its url is absolute http(s) and unseen. -/
def keptAux : List SearchResult → List String → Nat → List SearchResult
  | [], _, _ => []
  | r :: rest, seen, count =>
    if count < 3 ∧ pyStartsWith r.url "http" ∧ !seen.contains r.url then
      r :: keptAux rest (r.url :: seen) (count + 1)
    else
      keptAux rest seen count

/-- The live results `search_web` keeps from the scraped page. -/
def keptLive (raw : List SearchResult) : List SearchResult :=
  keptAux (raw.take 10) [] 0

/-- `for site in pool: if site['url'] not in seen_urls: append + mark seen`
(the curated-sites loop, lines 169-172). -/
def addUnseen (acc : List SearchResult) (seen : List String) :
    List SearchResult → List SearchResult × List String
  | [] => (acc, seen)
  | s :: rest =>
    if seen.contains s.url then addUnseen acc seen rest
    else addUnseen (acc ++ [s]) (s.url :: seen) rest

/-- The second fill loop (lines 175-179): append unseen curated sites
while the accumulated result list is shorter than 8. -/
def fillCap (acc : List SearchResult) (seen : List String) :
    List SearchResult → List SearchResult
  | [] => acc
  | s :: rest =>
    if !seen.contains s.url ∧ acc.length < 8 then
      fillCap (acc ++ [s]) (s.url :: seen) rest
    else
      fillCap acc seen rest

/-- The query-keyword bucketing of the curated list (lines 153-166). -/
def relevantSites (query : String) : List SearchResult :=
  let ql := pyLower query
  if isSubstr "art" ql || isSubstr "creative" ql || isSubstr "image" ql then
    qualityAiSites.filter (fun s =>
      containsAny ["art", "image", "creative", "video", "design"] (pyLower s.snippet))
  else if isSubstr "coding" ql || isSubstr "developer" ql then
    qualityAiSites.filter (fun s =>
      containsAny ["code", "development", "programming"] (pyLower s.snippet))
  else if isSubstr "writing" ql || isSubstr "content" ql then
    qualityAiSites.filter (fun s =>
      containsAny ["writing", "content", "copy", "text"] (pyLower s.snippet))
  else if isSubstr "music" ql || isSubstr "audio" ql || isSubstr "voice" ql then
    qualityAiSites.filter (fun s =>
      containsAny ["voice", "audio", "sound", "music"] (pyLower s.snippet))
  else
    qualityAiSites.take 8

/-- The `all_results` list `search_web` accumulates before the final
`[:num_results]` cut: keep up to 3 live results, and when fewer than 5
results were obtained, fill from the curated list (first the
query-relevant bucket capped at 6 additions, then, if still fewer than
5, arbitrary curated sites up to a total of 8). -/
def searchAll (query : String) (raw : List SearchResult) : List SearchResult :=
  let live := keptLive raw
  if live.length < 5 then
    let filled := addUnseen live (live.map (·.url)) ((relevantSites query).take 6)
    if filled.1.length < 5 then fillCap filled.1 filled.2 qualityAiSites
    else filled.1
  else live

/-- `search_web(query, num_results)` as a function of the raw scraped
live results: `all_results[:num_results]`. -/
def searchWeb (query : String) (raw : List SearchResult) (numResults : Nat) :
    List SearchResult :=
  (searchAll query raw).take numResults

/-! ### Models of the claimed (spec-worded) behaviour, for comparison -/

/-- The classifier keyword groups exactly as the claim documents them
(art/image/design → creative; music/audio/voice → audio;
game/play/interactive → games; write/text/content → ai-tools;
chat/assistant/bot → ai-tools; experiment/research/demo →
experimental; humor/weird/funny → fun), to be compared with the
code's `codeRules`. -/
def specClaimRules : List Rule :=
  [ ⟨["art", "image", "design"], "creative", [], []⟩,
    ⟨["music", "audio", "voice"], "audio", [], []⟩,
    ⟨["game", "play", "interactive"], "games", [], []⟩,
    ⟨["write", "text", "content"], "ai-tools", [], []⟩,
    ⟨["chat", "assistant", "bot"], "ai-tools", [], []⟩,
    ⟨["experiment", "research", "demo"], "experimental", [], []⟩,
    ⟨["humor", "weird", "funny"], "fun", [], []⟩ ]

/-- The category the claim's documented priority list assigns. -/
def specClaimCategory (text : String) : String :=
  classifyFirst specClaimRules text

/-- The description extraction exactly as the claim words it: the
`description` meta tag, then `og:description`, then
`twitter:description`, then the first paragraph-like block longer than
30 characters that does not look like a cookie/privacy/terms notice;
whitespace collapsed, truncated to 200 characters, generic fallback
sentence otherwise. -/
def specClaimDescription (page : Page) : String :=
  let d0 := page.metaDescription.getD ""
  let d1 := if d0 = "" then page.ogDescription.getD "" else d0
  let d2 := if d1 = "" then page.twitterDescription.getD "" else d1
  let d3 := if d2 = "" then
      (match page.firstParagraph with
       | some p =>
         let t := pyStrip p
         if 30 < t.length ∧ containsAny ["cookie", "privacy", "terms"] (pyLower t) = false
         then t else ""
       | none => "")
    else d2
  if d3 = "" then fallbackDescription else pyTake (collapseWs (pyStrip d3)) 200

/-- An option that Python's truthiness treats as falsy: the tag is
absent or its content is the empty string. -/
def absentOrEmpty (o : Option String) : Prop :=
  o = none ∨ o = some ""

/-! ### Concrete data used by counterexamples and witnesses -/

/-- A minimal scored record with the given url and overall score. -/
def mkW (url : String) (score : ℚ) : WebsiteScore :=
  ⟨url, "", "", 0, 0, 0, score, [], "", none⟩

/-- A stored collection of 100 records with distinct urls and
pairwise-distinct overall scores 0, 1, ..., 99. -/
def bigExisting : List WebsiteScore :=
  (List.range 100).map (fun i => mkW ("https://site" ++ toString i ++ ".ai") i)

/-- The lowest-scoring stored record of `bigExisting`. -/
def lowW : WebsiteScore :=
  mkW "https://site0.ai" 0

/-- A newly discovered record with a fresh url and a high score. -/
def highW : WebsiteScore :=
  mkW "https://new.ai" 1000

/-- A record appearing in a run's discoveries. -/
def siteA : Site :=
  ⟨"A", "descA", "https://a.example", "creative", "🎨", ["AI"]⟩

/-- A record written concurrently by another writer between load and
save. -/
def siteB : Site :=
  ⟨"B", "descB", "https://b.example", "creative", "🎨", ["AI"]⟩

/-! ### Helper lemmas -/

theorem pyOr_ne_empty {a b : String} (hb : b ≠ "") : pyOr a b ≠ "" := by
  unfold pyOr
  split
  · exact hb
  · assumption

theorem mem_dedupSeen_not_seen (key : α → String) :
    ∀ (l : List α) (seen : List String) (x : α),
      x ∈ dedupSeen key l seen → key x ∉ seen := by
  intro l
  induction l with
  | nil => intro seen x hx; simp [dedupSeen] at hx
  | cons a as ih =>
    intro seen x hx
    by_cases hc : seen.contains (key a)
    · rw [dedupSeen, if_pos hc] at hx
      exact ih seen x hx
    · rw [dedupSeen, if_neg hc] at hx
      rcases List.mem_cons.mp hx with h | h
      · subst h
        exact fun hmem => hc (List.elem_iff.mpr hmem)
      · have := ih (key a :: seen) x h
        exact fun hmem => this (List.mem_cons_of_mem _ hmem)

theorem nodup_dedupSeen (key : α → String) :
    ∀ (l : List α) (seen : List String), (dedupSeen key l seen).Nodup := by
  intro l
  induction l with
  | nil => intro seen; simp [dedupSeen]
  | cons a as ih =>
    intro seen
    by_cases hc : seen.contains (key a)
    · rw [dedupSeen, if_pos hc]; exact ih seen
    · rw [dedupSeen, if_neg hc]
      refine List.nodup_cons.mpr ⟨fun hmem => ?_, ih _⟩
      have := mem_dedupSeen_not_seen key as (key a :: seen) a hmem
      exact this (List.mem_cons_self _ _)

theorem nodup_dedupFirst (l : List String) : (dedupFirst l).Nodup := by
  have h := nodup_dedupSeen (α := String) id l []
  simpa [dedupFirst] using h

theorem mem_insertDesc {x a : WebsiteScore} :
    ∀ {l : List WebsiteScore}, a ∈ insertDesc x l ↔ a = x ∨ a ∈ l := by
  intro l
  induction l with
  | nil => simp [insertDesc]
  | cons y ys ih =>
    rw [insertDesc]
    split
    · simp [List.mem_cons]
    · simp only [List.mem_cons, ih]
      tauto

theorem length_insertDesc (x : WebsiteScore) :
    ∀ (l : List WebsiteScore), (insertDesc x l).length = l.length + 1 := by
  intro l
  induction l with
  | nil => rfl
  | cons y ys ih =>
    rw [insertDesc]
    split
    · rfl
    · simp [List.length_cons, ih]

theorem mem_sortDesc {a : WebsiteScore} :
    ∀ {l : List WebsiteScore}, a ∈ sortDesc l ↔ a ∈ l := by
  intro l
  induction l with
  | nil => simp [sortDesc]
  | cons y ys ih => simp [sortDesc, mem_insertDesc, ih]

theorem length_sortDesc :
    ∀ (l : List WebsiteScore), (sortDesc l).length = l.length := by
  intro l
  induction l with
  | nil => rfl
  | cons y ys ih => simp [sortDesc, length_insertDesc, ih]

theorem pairwise_insertDesc {x : WebsiteScore} :
    ∀ {l : List WebsiteScore},
      l.Pairwise (fun a b => b.overall_score ≤ a.overall_score) →
      (insertDesc x l).Pairwise (fun a b => b.overall_score ≤ a.overall_score) := by
  intro l
  induction l with
  | nil => intro _; simp [insertDesc]
  | cons y ys ih =>
    intro h
    rcases List.pairwise_cons.mp h with ⟨hy, hys⟩
    rw [insertDesc]
    split
    · rename_i hle
      refine List.pairwise_cons.mpr ⟨?_, h⟩
      intro z hz
      rcases List.mem_cons.mp hz with h1 | h1
      · subst h1; exact hle
      · exact le_trans (hy z h1) hle
    · rename_i hgt
      push_neg at hgt
      refine List.pairwise_cons.mpr ⟨?_, ih hys⟩
      intro z hz
      rcases mem_insertDesc.mp hz with h1 | h1
      · subst h1; exact le_of_lt hgt
      · exact hy z h1

theorem pairwise_sortDesc :
    ∀ (l : List WebsiteScore),
      (sortDesc l).Pairwise (fun a b => b.overall_score ≤ a.overall_score) := by
  intro l
  induction l with
  | nil => simp [sortDesc]
  | cons y ys ih => exact pairwise_insertDesc ih

theorem mem_newSites {existing discovered : List Site} {s : Site} :
    s ∈ newSites existing discovered ↔
      s ∈ discovered ∧ ∀ e ∈ existing, e.link ≠ s.link := by
  simp only [newSites, existingUrls, List.mem_filter, Bool.not_eq_true',
    ← Bool.not_eq_true, List.elem_iff, List.mem_map]
  constructor
  · rintro ⟨hd, hno⟩
    refine ⟨hd, fun e he heq => hno ⟨e, he, heq⟩⟩
  · rintro ⟨hd, hall⟩
    refine ⟨hd, fun ⟨e, he, heq⟩ => hall e he heq⟩

theorem newSites_of_run (existing discovered : List Site) :
    newSites (existing ++ newSites existing discovered) discovered = [] := by
  apply List.filter_eq_nil_iff.mpr
  intro s hs
  simp only [Bool.not_eq_true', Bool.not_eq_false]
  apply List.elem_iff.mpr
  by_cases hc : s.link ∈ existingUrls existing
  · simp only [existingUrls, List.map_append] at hc ⊢
    exact List.mem_append_left _ hc
  · have hmem : s ∈ newSites existing discovered := by
      simp only [newSites, List.mem_filter]
      refine ⟨hs, ?_⟩
      simp only [Bool.not_eq_true', ← Bool.not_eq_true, List.elem_iff]
      simpa using hc
    simp only [existingUrls, List.map_append]
    exact List.mem_append_right _ (List.mem_map_of_mem _ hmem)

theorem contains_iff_mem {l : List String} {a : String} :
    l.contains a = true ↔ a ∈ l :=
  List.elem_iff

theorem contains_erase_of_ne {l : List String} {a b : String} (h : a ≠ b) :
    (l.erase b).contains a = l.contains a := by
  rw [Bool.eq_iff_iff, contains_iff_mem, contains_iff_mem]
  exact List.mem_erase_of_ne h

theorem addUnseen_spec :
    ∀ (pool : List SearchResult) (acc : List SearchResult) (seen : List String),
      ∃ extra : List SearchResult,
        (addUnseen acc seen pool).1 = acc ++ extra ∧
        (addUnseen acc seen pool).2.length = seen.length + extra.length ∧
        (∀ u ∈ seen, u ∈ (addUnseen acc seen pool).2) ∧
        (∀ s ∈ extra, s ∈ pool ∧ s.url ∉ seen) := by
  intro pool
  induction pool with
  | nil =>
    intro acc seen
    exact ⟨[], by simp [addUnseen]⟩
  | cons s rest ih =>
    intro acc seen
    by_cases hc : seen.contains s.url
    · obtain ⟨extra, h1, h2, h3, h4⟩ := ih acc seen
      rw [addUnseen, if_pos hc] at *
      exact ⟨extra, h1, h2, h3, fun x hx =>
        ⟨List.mem_cons_of_mem _ (h4 x hx).1, (h4 x hx).2⟩⟩
    · obtain ⟨extra, h1, h2, h3, h4⟩ := ih (acc ++ [s]) (s.url :: seen)
      rw [addUnseen, if_neg hc] at *
      refine ⟨s :: extra, ?_, ?_, ?_, ?_⟩
      · rw [h1, List.append_assoc]; rfl
      · rw [h2]; simp [Nat.add_comm, Nat.add_assoc, Nat.add_left_comm]
      · intro u hu
        exact h3 u (List.mem_cons_of_mem _ hu)
      · intro x hx
        rcases List.mem_cons.mp hx with h | h
        · subst h
          exact ⟨List.mem_cons_self _ _, fun hmem => hc (List.elem_iff.mpr hmem)⟩
        · obtain ⟨hp, hs⟩ := h4 x h
          exact ⟨List.mem_cons_of_mem _ hp,
            fun hmem => hs (List.mem_cons_of_mem _ hmem)⟩

theorem fillCap_spec :
    ∀ (pool : List SearchResult) (acc : List SearchResult) (seen : List String),
      ∃ extra : List SearchResult,
        fillCap acc seen pool = acc ++ extra ∧
        (∀ s ∈ extra, s ∈ pool ∧ s.url ∉ seen) := by
  intro pool
  induction pool with
  | nil =>
    intro acc seen
    exact ⟨[], by simp [fillCap]⟩
  | cons s rest ih =>
    intro acc seen
    by_cases hc : !seen.contains s.url ∧ acc.length < 8
    · obtain ⟨extra, h1, h2⟩ := ih (acc ++ [s]) (s.url :: seen)
      rw [fillCap, if_pos hc]
      refine ⟨s :: extra, ?_, ?_⟩
      · rw [h1, List.append_assoc]; rfl
      · intro x hx
        rcases List.mem_cons.mp hx with h | h
        · subst h
          refine ⟨List.mem_cons_self _ _, fun hmem => ?_⟩
          exact absurd hmem (by simpa using hc.1)
        · obtain ⟨hp, hs⟩ := h2 x h
          exact ⟨List.mem_cons_of_mem _ hp,
            fun hmem => hs (List.mem_cons_of_mem _ hmem)⟩
    · obtain ⟨extra, h1, h2⟩ := ih acc seen
      rw [fillCap, if_neg hc]
      exact ⟨extra, h1, fun x hx =>
        ⟨List.mem_cons_of_mem _ (h2 x hx).1, (h2 x hx).2⟩⟩

theorem filter_unseen_length :
    ∀ (pool : List SearchResult), (pool.map (·.url)).Nodup →
      ∀ (seen : List String),
        pool.length ≤ seen.length +
          (pool.filter (fun s => !seen.contains s.url)).length := by
  intro pool
  induction pool with
  | nil => intro _ seen; simp
  | cons s rest ih =>
    intro hnd seen
    rw [List.map_cons, List.nodup_cons] at hnd
    obtain ⟨hhead, htail⟩ := hnd
    by_cases hc : seen.contains s.url
    · have hmem : s.url ∈ seen := List.elem_iff.mp hc
      have hfil : rest.filter (fun r => !seen.contains r.url) =
          rest.filter (fun r => !(seen.erase s.url).contains r.url) := by
        apply List.filter_congr
        intro r hr
        have hne : r.url ≠ s.url := by
          intro heq
          exact hhead (heq ▸ List.mem_map_of_mem _ hr)
        rw [contains_erase_of_ne hne]
      have hlen : (seen.erase s.url).length + 1 = seen.length := by
        have := List.length_erase_of_mem hmem
        have hpos : 0 < seen.length := List.length_pos_of_mem hmem
        omega
      have := ih htail (seen.erase s.url)
      rw [List.filter_cons, if_neg (by simp [hmem]), List.length_cons]
      rw [hfil]
      omega
    · have hnm : s.url ∉ seen := fun hmem => hc (contains_iff_mem.mpr hmem)
      rw [List.filter_cons, if_pos (by simp [hnm]), List.length_cons,
        List.length_cons]
      have := ih htail seen
      omega

theorem fillCap_reach :
    ∀ (pool : List SearchResult), (pool.map (·.url)).Nodup →
      ∀ (acc : List SearchResult) (seen : List String),
        8 ≤ acc.length + (pool.filter (fun s => !seen.contains s.url)).length →
        8 ≤ (fillCap acc seen pool).length := by
  intro pool
  induction pool with
  | nil =>
    intro _ acc seen h
    simpa [fillCap] using h
  | cons s rest ih =>
    intro hnd acc seen h
    rw [List.map_cons, List.nodup_cons] at hnd
    obtain ⟨hhead, htail⟩ := hnd
    by_cases hc : !seen.contains s.url ∧ acc.length < 8
    · rw [fillCap, if_pos hc]
      apply ih htail
      have hfil : rest.filter (fun r => !(s.url :: seen).contains r.url) =
          rest.filter (fun r => !seen.contains r.url) := by
        apply List.filter_congr
        intro r hr
        have hne : r.url ≠ s.url := by
          intro heq
          exact hhead (heq ▸ List.mem_map_of_mem _ hr)
        simp [List.contains_cons, hne]
      rw [hfil, List.length_append]
      rw [List.filter_cons, if_pos hc.1, List.length_cons] at h
      simp only [List.length_cons] at *
      omega
    · rw [fillCap, if_neg hc]
      rcases Decidable.not_and_iff_or_not.mp hc with hcc | hlen
      · by_cases hmem : s.url ∈ seen
        · apply ih htail
          rw [List.filter_cons, if_neg (by simp [hmem])] at h
          exact h
        · exact absurd (by simp [hmem]) hcc
      · obtain ⟨extra, he, _⟩ := fillCap_spec rest acc seen
        rw [he, List.length_append]
        omega

theorem relevantSites_subset (query : String) :
    ∀ s ∈ relevantSites query, s ∈ qualityAiSites := by
  intro s hs
  simp only [relevantSites] at hs
  repeat' split at hs
  all_goals
    first
    | exact (List.mem_filter.mp hs).1
    | exact List.mem_of_mem_take hs

theorem searchAll_spec (query : String) (raw : List SearchResult)
    (hlive : (keptLive raw).length < 5) :
    ∃ extra : List SearchResult,
      searchAll query raw = keptLive raw ++ extra ∧
      5 ≤ (searchAll query raw).length ∧
      (∀ s ∈ extra, s ∈ qualityAiSites ∧
        s.url ∉ (keptLive raw).map (·.url)) ∧
      extra ≠ [] := by
  have hq : (qualityAiSites.map (·.url)).Nodup := by decide
  have hq20 : qualityAiSites.length = 20 := by decide
  obtain ⟨e1, he1, hlen1, hsub1, hprop1⟩ :=
    addUnseen_spec ((relevantSites query).take 6) (keptLive raw)
      ((keptLive raw).map (·.url))
  have he1mem : ∀ s ∈ e1, s ∈ qualityAiSites ∧
      s.url ∉ (keptLive raw).map (·.url) := by
    intro s hs
    obtain ⟨hp, hns⟩ := hprop1 s hs
    exact ⟨relevantSites_subset query s (List.mem_of_mem_take hp), hns⟩
  have hfst : (addUnseen (keptLive raw) ((keptLive raw).map (·.url))
      ((relevantSites query).take 6)).1.length =
      (keptLive raw).length + e1.length := by
    rw [he1, List.length_append]
  have hsnd : (addUnseen (keptLive raw) ((keptLive raw).map (·.url))
      ((relevantSites query).take 6)).2.length =
      (keptLive raw).length + e1.length := by
    rw [hlen1, List.length_map]
  simp only [searchAll]
  rw [if_pos hlive]
  by_cases h5 : (addUnseen (keptLive raw) ((keptLive raw).map (·.url))
      ((relevantSites query).take 6)).1.length < 5
  · rw [if_pos h5]
    obtain ⟨e2, he2, hprop2⟩ :=
      fillCap_spec qualityAiSites
        (addUnseen (keptLive raw) ((keptLive raw).map (·.url))
          ((relevantSites query).take 6)).1
        (addUnseen (keptLive raw) ((keptLive raw).map (·.url))
          ((relevantSites query).take 6)).2
    have hreach : 8 ≤ (fillCap
        (addUnseen (keptLive raw) ((keptLive raw).map (·.url))
          ((relevantSites query).take 6)).1
        (addUnseen (keptLive raw) ((keptLive raw).map (·.url))
          ((relevantSites query).take 6)).2 qualityAiSites).length := by
      apply fillCap_reach qualityAiSites hq
      have hfilter := filter_unseen_length qualityAiSites hq
        (addUnseen (keptLive raw) ((keptLive raw).map (·.url))
          ((relevantSites query).take 6)).2
      omega
    refine ⟨e1 ++ e2, ?_, ?_, ?_, ?_⟩
    · rw [he2, he1, List.append_assoc]
    · omega
    · intro s hs
      rcases List.mem_append.mp hs with h | h
      · exact he1mem s h
      · obtain ⟨hp, hns⟩ := hprop2 s h
        refine ⟨hp, fun hmem => hns (hsub1 s.url ?_)⟩
        exact hmem
    · have hlentot : (fillCap
          (addUnseen (keptLive raw) ((keptLive raw).map (·.url))
            ((relevantSites query).take 6)).1
          (addUnseen (keptLive raw) ((keptLive raw).map (·.url))
            ((relevantSites query).take 6)).2 qualityAiSites).length =
          (keptLive raw).length + (e1 ++ e2).length := by
        rw [he2, he1, List.append_assoc, List.length_append]
      intro hnil
      rw [hnil] at hlentot
      simp at hlentot
      omega
  · rw [if_neg h5]
    refine ⟨e1, he1, by omega, he1mem, ?_⟩
    intro hnil
    rw [hnil] at hfst
    simp at hfst
    omega

theorem firstRule_head_match {r : Rule} {rest : List Rule} {text : String}
    (h : containsAny r.words text = true) :
    firstRule (r :: rest) text = r := by
  simp [firstRule, h]

theorem firstRule_no_match :
    ∀ (rules : List Rule) (text : String),
      (∀ r ∈ rules, containsAny r.words text = false) →
      firstRule rules text = ⟨[], "creative", ["🎨"], []⟩ := by
  intro rules
  induction rules with
  | nil => intro text _; rfl
  | cons r rest ih =>
    intro text h
    have hr := h r (List.mem_cons_self _ _)
    rw [firstRule, if_neg (by simp [hr])]
    exact ih text (fun r2 h2 => h r2 (List.mem_cons_of_mem _ h2))

theorem pyTake_ne_empty {s : String} (hs : s ≠ "") {n : Nat} (hn : 0 < n) :
    pyTake s n ≠ "" := by
  unfold pyTake
  cases hl : s.toList with
  | nil =>
    exfalso
    apply hs
    cases s with
    | mk data => cases hl; rfl
  | cons c cs =>
    cases n with
    | zero => omega
    | succ m =>
      rw [List.take_succ_cons]
      intro heq
      have := congrArg String.toList heq
      simp [List.asString, String.toList] at this

/-! ### The claims -/

/-- C1: the records appended to the collection are exactly the
discovered records whose url does not occur among the urls of the
existing collection; a discovered record whose url already exists is
dropped entirely whatever its other fields, and the stored entries are
kept unchanged as a prefix (first write wins permanently). -/
theorem claim1_merge_filters_by_url (existing discovered : List Site) :
    allSites existing discovered = existing ++ newSites existing discovered ∧
    ∀ s : Site, s ∈ newSites existing discovered ↔
      s ∈ discovered ∧ ∀ e ∈ existing, e.link ≠ s.link :=
  ⟨rfl, fun _ => mem_newSites⟩

/-- C3 counterexample: the store holds revision 0 at load time and
revision 1 at save time (a concurrent writer added `siteB` in
between), yet the save *succeeds* — it re-fetches the fresh revision
token instead of using the load-time one — and the written document no
longer contains `siteB`: the claimed "save step fails, stored document
unchanged" behaviour does not happen. -/
theorem claim3_counterexample :
    loadCreative ⟨some ([], 0)⟩ = [] ∧
    getContents ⟨some ([siteB], 1)⟩ = some ([siteB], 1) ∧
    (0 : Nat) ≠ 1 ∧
    saveCreative ⟨some ([siteB], 1)⟩
        (allSites (loadCreative ⟨some ([], 0)⟩) [siteA]) =
      Except.ok ⟨some ([siteA], 2)⟩ ∧
    siteB ∉ [siteA] :=
  ⟨rfl, rfl, by decide, rfl, by decide⟩

/-- C3 amended: the save step re-fetches the document's current
revision immediately before writing and writes with that fresh token,
so a revision change between load and save never makes the save fail:
whatever the store's state, the save succeeds and unconditionally
overwrites the stored document with the run's content (concurrent
modifications are lost, not preserved); when the document is missing
the create path is taken. -/
theorem claim3_amended_save_never_conflicts (s : Store) (content : List Site) :
    ∃ r : Nat, saveCreative s content = Except.ok ⟨some (content, r)⟩ := by
  obtain ⟨f⟩ := s
  cases f with
  | none => exact ⟨0, rfl⟩
  | some p =>
    obtain ⟨c, rev⟩ := p
    exact ⟨rev + 1, by simp [saveCreative, getContents, updateFile]⟩

/-- C5: every record the page analyzer produces carries a tag list
with no duplicates and at most 4 entries. -/
theorem claim5_tags_dedup_capped (page : Page) (url fallbackTitle : String)
    (rnd : Nat) :
    (analyzeSite page url fallbackTitle rnd).tags.Nodup ∧
    (analyzeSite page url fallbackTitle rnd).tags.length ≤ 4 :=
  ⟨List.Nodup.sublist (List.take_sublist _ _) (nodup_dedupFirst _),
   List.length_take_le _ _⟩

/-- C7: a second run over the same analyzed records, loading the
collection the first run left behind, finds nothing new — its
`toAppend` is empty — and leaves the collection unchanged, hence of
the same size. -/
theorem claim7_second_run_appends_nothing (stored analyzed : List Site) :
    newSites (runCollection stored analyzed) (uniqueDiscovered analyzed) = [] ∧
    runCollection (runCollection stored analyzed) analyzed =
      runCollection stored analyzed ∧
    (runCollection (runCollection stored analyzed) analyzed).length =
      (runCollection stored analyzed).length := by
  have h := newSites_of_run stored (uniqueDiscovered analyzed)
  refine ⟨h, ?_, ?_⟩
  · show allSites (runCollection stored analyzed) (uniqueDiscovered analyzed) =
      runCollection stored analyzed
    unfold allSites runCollection allSites at *
    rw [h, List.append_nil]
  · show (allSites (runCollection stored analyzed)
      (uniqueDiscovered analyzed)).length = (runCollection stored analyzed).length
    unfold allSites runCollection allSites at *
    rw [h, List.append_nil]

/-- C2 counterexample: a page whose analyzed text is
"video chat zzz https://zzz.example" matches none of the claim's
documented keyword groups before its chat group, so the claimed
priority list yields "ai-tools"; the code, however, tests its
video/animation/movie/film/motion group *before* the chat group and
classifies the page as "creative".  The documented order is not the
code's order. -/
theorem claim2_counterexample :
    specClaimCategory
        (contentTextOf
          (analyzeSite ⟨some "Video Chat", some "zzz", none, none, none⟩
            "https://zzz.example" "" 0).title
          (analyzeSite ⟨some "Video Chat", some "zzz", none, none, none⟩
            "https://zzz.example" "" 0).description
          "https://zzz.example") = "ai-tools" ∧
    (analyzeSite ⟨some "Video Chat", some "zzz", none, none, none⟩
        "https://zzz.example" "" 0).category = "creative" ∧
    "creative" ≠ "ai-tools" := by
  decide

/-- C2 amended: classification concatenates title, description and url
into one lowercase text and tests the code's keyword groups in source
order — art-group → creative, music-group → audio, game-group → games,
write-group → ai-tools, then a video/animation/movie/film/motion group
→ creative, then chat-group → ai-tools, experiment-group →
experimental, humor-group → fun, with each group's keyword list
extending the documented triple — the first matching group wins
deterministically (in particular text matching both the art group and
the music group is classified creative), and text matching no group
keeps the default category creative. -/
theorem claim2_amended_priority (page : Page) (url fallbackTitle : String)
    (rnd : Nat) :
    (analyzeSite page url fallbackTitle rnd).category =
      classifyFirst codeRules
        (contentTextOf (siteTitle page url fallbackTitle)
          (siteDescription page) url) ∧
    (∀ text : String,
      containsAny ["art", "image", "photo", "visual", "design", "draw",
        "paint", "creative"] text = true →
      classifyFirst codeRules text = "creative") ∧
    (∀ text : String,
      (∀ r ∈ codeRules, containsAny r.words text = false) →
      classifyFirst codeRules text = "creative") := by
  refine ⟨rfl, ?_, ?_⟩
  · intro text h
    rw [classifyFirst, show codeRules = codeRules.head (by simp [codeRules]) ::
      codeRules.tail from rfl, firstRule_head_match h]
    rfl
  · intro text h
    rw [classifyFirst, firstRule_no_match codeRules text h]

/-- C2 amended, witness: text containing both "art" and "music" is
deterministically classified creative by the code's priority order. -/
theorem claim2_amended_priority_witness :
    classifyFirst codeRules "generative art with music" = "creative" :=
  (claim2_amended_priority ⟨none, none, none, none, none⟩ "" "" 0).2.1
    "generative art with music" (by decide)

/-- C8 counterexample: a page carrying only a `twitter:description`
meta tag.  The claimed extraction order would use it; the code never
reads `twitter:description` (it tries only the `description` meta tag,
`og:description` and the first paragraph) and substitutes the generic
fallback sentence instead. -/
theorem claim8_counterexample :
    siteDescription
        ⟨some "T", none, none, some "From the twitter card description", none⟩ =
      fallbackDescription ∧
    specClaimDescription
        ⟨some "T", none, none, some "From the twitter card description", none⟩ =
      "From the twitter card description" ∧
    fallbackDescription ≠ "From the twitter card description" := by
  decide

/-- C8 amended: description extraction tries, in this order, the
`description` meta tag, then `og:description`, then the text of the
first paragraph (stripped and cut to 200 characters) — there is no
`twitter:description` step and the paragraph is used however short it
is and whatever notice it resembles; the chosen text is stripped,
whitespace-collapsed and truncated to 200 characters, and when none of
the three sources yields text the generic fallback sentence is
substituted. -/
theorem claim8_amended_description (page : Page) :
    (∀ d, page.metaDescription = some d → d ≠ "" →
      siteDescription page = pyTake (collapseWs (pyStrip d)) 200) ∧
    (absentOrEmpty page.metaDescription →
      ∀ g, page.ogDescription = some g → g ≠ "" →
      siteDescription page = pyTake (collapseWs (pyStrip g)) 200) ∧
    (absentOrEmpty page.metaDescription → absentOrEmpty page.ogDescription →
      ∀ p, page.firstParagraph = some p → pyStrip p ≠ "" →
      siteDescription page =
        pyTake (collapseWs (pyStrip (pyTake (pyStrip p) 200))) 200) ∧
    (∀ tw, siteDescription { page with twitterDescription := tw } =
      siteDescription page) ∧
    (absentOrEmpty page.metaDescription → absentOrEmpty page.ogDescription →
      page.firstParagraph = none →
      siteDescription page = fallbackDescription) := by
  refine ⟨?_, ?_, ?_, fun _ => rfl, ?_⟩
  · intro d hd hne
    simp [siteDescription, hd, hne]
  · intro hmd g hg hne
    rcases hmd with h | h <;>
      simp [siteDescription, h, hg, hne]
  · intro hmd hog p hp hne
    have hne2 : pyTake (pyStrip p) 200 ≠ "" := pyTake_ne_empty hne (by omega)
    rcases hmd with h | h <;> rcases hog with h2 | h2 <;>
      simp [siteDescription, h, h2, hp, hne2]
  · intro hmd hog hp
    rcases hmd with h | h <;> rcases hog with h2 | h2 <;>
      simp [siteDescription, h, h2, hp]

/-- C8 amended, witness: with no meta descriptions present, a
two-character first paragraph is used as the description (the claimed
30-character minimum does not exist in the code). -/
theorem claim8_amended_description_witness :
    siteDescription ⟨some "T", none, none, none, some "hi"⟩ =
      pyTake (collapseWs (pyStrip (pyTake (pyStrip "hi") 200))) 200 :=
  (claim8_amended_description ⟨some "T", none, none, none, some "hi"⟩).2.2.1
    (Or.inl rfl) (Or.inl rfl) "hi" rfl (by decide)

/-- C4 counterexample: the scoring variant is not append-only.  With
100 stored records of scores 0..99 and one newly discovered record of
score 1000, the merged list is sorted by score and truncated to 100
entries, which deletes the stored lowest-scoring record. -/
theorem claim4_counterexample :
    lowW ∈ bigExisting ∧ lowW ∉ runDailyMerge bigExisting [highW] := by
  decide

/-- C4 amended: the creative pipeline is append-only — the written
collection is the loaded collection followed by the new records — and
the scoring variant preserves every loaded entry only while the merged
list stays within 100 entries; beyond that, sorting and truncation can
delete stored entries (see the counterexample). -/
theorem claim4_amended_append_only (e d : List Site)
    (e2 n2 : List WebsiteScore) :
    allSites e d = e ++ newSites e d ∧
    ((e2 ++ trulyNew e2 n2).length ≤ 100 →
      ∀ x ∈ e2, x ∈ runDailyMerge e2 n2) := by
  refine ⟨rfl, ?_⟩
  intro hlen x hx
  unfold runDailyMerge
  split
  · exact hx
  · unfold savedDoc
    rw [List.take_of_length_le (by rw [length_sortDesc]; exact hlen)]
    exact mem_sortDesc.mpr (List.mem_append_left _ hx)

/-- C4 amended, witness: a stored entry survives a merge that stays
within the 100-entry cap. -/
theorem claim4_amended_append_only_witness :
    lowW ∈ runDailyMerge [lowW] [highW] :=
  (claim4_amended_append_only [] [] [lowW] [highW]).2 (by decide) lowW
    (by decide)

/-- C9: whenever the scoring variant saves, the persisted discoveries
list is the merged list sorted by overall score in descending order
and truncated to at most 100 entries, and the truncation silently
discards lowest-scoring entries — previously persisted ones included,
as the concrete instance in the second conjunct shows. -/
theorem claim9_save_sorted_capped :
    (∀ e n : List WebsiteScore,
      (savedDoc e n).length ≤ 100 ∧
      (savedDoc e n).Pairwise
        (fun a b => b.overall_score ≤ a.overall_score) ∧
      runDailyMerge e n =
        (if (trulyNew e n).isEmpty then e else savedDoc e n)) ∧
    (lowW ∈ bigExisting ∧ lowW ∉ savedDoc bigExisting [highW]) := by
  refine ⟨fun e n => ⟨List.length_take_le _ _, ?_, rfl⟩, by decide⟩
  exact (pairwise_sortDesc _).sublist (List.take_sublist _ _)

/-- C6: when the fetched page's title element is empty (or absent),
the analyzer's title is the fallback title or, failing that, the url's
host name (possibly the whitespace-collapsed fallback when the element
is absent), and it is never the empty string.  The hypothesis that the
url has a nonempty host holds for every url the fetch step can
actually retrieve. -/
theorem claim6_title_never_empty (page : Page) (url fallbackTitle : String)
    (rnd : Nat)
    (hempty : ∀ t, page.titleTag = some t → pyStrip t = "")
    (hnet : netloc url ≠ "") :
    (analyzeSite page url fallbackTitle rnd).title ≠ "" ∧
    ((analyzeSite page url fallbackTitle rnd).title =
        pyOr fallbackTitle (netloc url) ∨
      (analyzeSite page url fallbackTitle rnd).title =
        pyTake (collapseWs fallbackTitle) 100) := by
  have ht : (analyzeSite page url fallbackTitle rnd).title =
      siteTitle page url fallbackTitle := rfl
  rw [ht]
  unfold siteTitle
  cases hp : page.titleTag with
  | some t =>
    have hst := hempty t hp
    simp only [hst, show pyTake (collapseWs "") 100 = "" from rfl]
    rw [if_pos (by simp)]
    exact ⟨pyOr_ne_empty hnet, Or.inl rfl⟩
  | none =>
    simp only []
    split
    · exact ⟨pyOr_ne_empty hnet, Or.inl rfl⟩
    · rename_i hcond
      simp only [Bool.or_eq_true, decide_eq_true_eq, not_or] at hcond
      exact ⟨hcond.1, Or.inr rfl⟩

/-- C6 witness: a page with an empty title element yields the fallback
title. -/
theorem claim6_title_never_empty_witness :
    (analyzeSite ⟨some "", none, none, none, none⟩ "https://example.ai/x"
        "Fallback" 0).title ≠ "" ∧
    ((analyzeSite ⟨some "", none, none, none, none⟩ "https://example.ai/x"
        "Fallback" 0).title = pyOr "Fallback" (netloc "https://example.ai/x") ∨
      (analyzeSite ⟨some "", none, none, none, none⟩ "https://example.ai/x"
        "Fallback" 0).title = pyTake (collapseWs "Fallback") 100) :=
  claim6_title_never_empty ⟨some "", none, none, none, none⟩
    "https://example.ai/x" "Fallback" 0
    (fun t hteq => by cases hteq; rfl) (by decide)

/-- C10: whenever the live web search kept fewer than 5 results (the
scrape loop in fact never keeps more than 3), `search_web` fills the
returned list from the fixed hard-coded 20-site curated list — every
returned result is either a kept live result or a curated site, at
least 5 results are returned, and at least one returned curated site
has a url that no kept live result had, i.e. the results can include
candidates never obtained from any live web source. -/
theorem claim10_curated_fallback (query : String) (raw : List SearchResult)
    (numResults : Nat) (hlive : (keptLive raw).length < 5)
    (hn : 5 ≤ numResults) :
    5 ≤ (searchWeb query raw numResults).length ∧
    (∀ s ∈ searchWeb query raw numResults,
      s ∈ keptLive raw ∨ s ∈ qualityAiSites) ∧
    ∃ s ∈ searchWeb query raw numResults,
      s ∈ qualityAiSites ∧ s.url ∉ (keptLive raw).map (·.url) := by
  obtain ⟨extra, heq, hlen, hprop, hnonnil⟩ := searchAll_spec query raw hlive
  unfold searchWeb
  refine ⟨?_, ?_, ?_⟩
  · rw [List.length_take]
    exact le_min hn hlen
  · intro s hs
    have hmem := List.mem_of_mem_take hs
    rw [heq] at hmem
    rcases List.mem_append.mp hmem with h | h
    · exact Or.inl h
    · exact Or.inr (hprop s h).1
  · obtain ⟨hd, tl, hext⟩ := List.exists_cons_of_ne_nil hnonnil
    have hhd : hd ∈ extra := by rw [hext]; exact List.mem_cons_self _ _
    obtain ⟨hquality, hnourl⟩ := hprop hd hhd
    refine ⟨hd, ?_, hquality, hnourl⟩
    rw [heq, hext, List.take_append_eq_append_take,
      List.take_of_length_le (le_trans (le_of_lt hlive) hn)]
    apply List.mem_append_right
    have hpos : 0 < numResults - (keptLive raw).length := by omega
    cases hcase : numResults - (keptLive raw).length with
    | zero => omega
    | succ m =>
      rw [List.take_succ_cons]
      exact List.mem_cons_self _ _

/-- C10 witness: with no live results at all, the returned list still
holds at least 5 results, all drawn from the curated list. -/
theorem claim10_curated_fallback_witness :
    5 ≤ (searchWeb "quirky AI websites" [] 15).length ∧
    (∀ s ∈ searchWeb "quirky AI websites" [] 15,
      s ∈ keptLive [] ∨ s ∈ qualityAiSites) ∧
    ∃ s ∈ searchWeb "quirky AI websites" [] 15,
      s ∈ qualityAiSites ∧ s.url ∉ (keptLive []).map (·.url) :=
  claim10_curated_fallback "quirky AI websites" [] 15 (by decide) (by decide)

end Serendip
